import Mathlib

/-!
# A verification model of the gsc-client copy-resolution engine

This file is a shallow embedding of the remote-path addressing and
copy-resolution logic of the `gsc` command-line client (`src/lib.rs`,
`src/config.rs`, `src/errors.rs`, `src/args/types.rs`, `src/bin/gsc.rs`),
together with theorems checking the natural-language specification against it.

Modelling conventions:
* Local paths and remote names are Lean `String`s; the local filesystem is an
  association list from exact path strings to a node kind (`dir`/`file`).
* The server is a read-only function from homework number to its file list
  (the HTTP fetch itself is out of scope; the engine only consumes the list).
* Actual byte transfer (the HTTP GET/PUT bodies, `OpenOptions` plumbing) is
  out of scope; a download records a trace event and creates the destination
  file, an upload records a trace event and fails exactly when no regular
  file exists at the local source path (modelling `fs::File::open(&src)?`).
* Interactive input is a list of the strings returned by successive
  `read_line` calls (an empty string models end of input, as in the source,
  where an empty buffer means EOF).
* `\d` in the source's regexes is modelled as an ASCII digit, and machine
  integers (`usize`) as `Nat` with an explicit `< 2 ^ 64` overflow bound.
-/

namespace Gsc

/-- `messages::FilePurpose` (src/messages.rs). -/
inductive FilePurpose
  | source
  | test
  | config
  | resource
  | log
  | forbidden
deriving DecidableEq, Repr

/-- `FilePurpose::to_dir` (src/messages.rs): subdirectory used by the
whole-homework download fan-out. -/
def FilePurpose.to_dir : FilePurpose → String
  | .source => "src"
  | .test => "test"
  | .config => "."
  | .resource => "Resources"
  | .log => "."
  | .forbidden => "."

/-- The fields of `messages::FileMeta` that the copy-resolution engine
consumes (name and purpose; byte counts, media types, upload times and URIs
play no role in resolution). -/
structure FileMeta where
  name : String
  purpose : FilePurpose
deriving DecidableEq, Repr

/-- The character of the decimal digit `d` (for `d < 10`). -/
def digitChar (d : Nat) : Char :=
  Char.ofNat (48 + d)

/-- Fuel-driven decimal printer: `fuel ≥ n` always suffices, since the
argument drops by a factor of ten each step. Structural recursion on the
fuel keeps the definition kernel-reducible. -/
def natDigitsFuel : Nat → Nat → List Char
  | 0, n => [digitChar (n % 10)]
  | fuel + 1, n =>
    if n < 10 then [digitChar n]
    else natDigitsFuel fuel (n / 10) ++ [digitChar (n % 10)]

/-- The decimal digit characters of `n`, most significant first — the
digits Rust's `Display` for `usize` renders. -/
def natDigits (n : Nat) : List Char :=
  natDigitsFuel n n

/-- The decimal rendering of `n` (Rust's `{}` formatting of `usize`). -/
def natDecimal (n : Nat) : String :=
  String.mk (natDigits n)

/-- The numeric value of a run of decimal digit characters, most significant
first (the fold Rust's `usize::from_str` computes). -/
def digitsVal (cs : List Char) : Nat :=
  cs.foldl (fun a c => 10 * a + (c.toNat - 48)) 0

/-- `RemotePattern = HwQual<String>` (src/args/types.rs): a homework number
together with a (possibly empty) file name or glob pattern. -/
structure RemotePattern where
  hw : Nat
  name : String
deriving DecidableEq, Repr

/-- `HwQual::is_whole_hw` (src/args/types.rs): a pattern with an empty name
denotes the entire homework. -/
def RemotePattern.is_whole_hw (p : RemotePattern) : Bool :=
  p.name.isEmpty

/-- `Display for HwQual` (src/args/types.rs): renders `hw<N>:<name>` by
`write!(f, "hw{}:{}", self.hw, self.name)`. -/
def RemotePattern.display (p : RemotePattern) : String :=
  "hw" ++ natDecimal p.hw ++ ":" ++ p.name

/-- `CpArg` (src/args/types.rs): one `cp` command-line operand. -/
inductive CpArg
  | Local (path : String)
  | Remote (rpat : RemotePattern)
deriving DecidableEq, Repr

/-- The error kinds of `errors::ErrorKind` reachable from the copy engine. -/
inductive GscError
  | cannotCopyLocalToLocal (src dst : String)
  | cannotCopyLocalToLocalExtra (src dst msg : String)
  | cannotCopyRemoteToRemote (src dst : RemotePattern)
  | multipleSourcesOneDestination
  | sourceHwToDestinationFile (hw : Nat) (dst : String)
  | noSuchRemoteFile (pat : RemotePattern)
  | destinationPatternIsMultiple (pat : RemotePattern) (files : List String)
  | destinationFileExists (dst : String)
  | badLocalPath (path : String)
  | localIoError (path : String)
  | syntaxError (expected thing : String)
deriving DecidableEq, Repr

/-- `^hw\d+$` (the `HW_NUM` regex of `ErrorKind::cannot_copy_local_to_local`,
src/errors.rs): `hw` followed by one or more digits. -/
def looksLikeHwNum (s : String) : Bool :=
  match s.toList with
  | 'h' :: 'w' :: rest => !rest.isEmpty && rest.all Char.isDigit
  | _ => false

/-- `ErrorKind::cannot_copy_local_to_local` (src/errors.rs): picks the
hint-carrying variant when the destination is a bare `hw<digits>` token. -/
def cannot_copy_local_to_local (src dst : String) : GscError :=
  if looksLikeHwNum dst then
    GscError.cannotCopyLocalToLocalExtra src dst
      ("Did you leave out the colon (" ++ dst ++ ":)?")
  else
    GscError.cannotCopyLocalToLocal src dst

/-- Fuel-driven shell-style glob matching over `*`, `?` and literal
characters. Every recursive call shrinks `ps.length + s.length`, so fuel
`ps.length + s.length + 1` always suffices; structural recursion on the fuel
keeps the definition kernel-reducible. -/
def globMatchFuel : Nat → List Char → List Char → Bool
  | 0, _, _ => false
  | _ + 1, [], s => s.isEmpty
  | fuel + 1, '*' :: ps, [] => globMatchFuel fuel ps []
  | fuel + 1, '*' :: ps, c :: cs =>
    globMatchFuel fuel ps (c :: cs) || globMatchFuel fuel ('*' :: ps) cs
  | _ + 1, '?' :: _, [] => false
  | fuel + 1, '?' :: ps, _ :: cs => globMatchFuel fuel ps cs
  | _ + 1, _ :: _, [] => false
  | fuel + 1, p :: ps, c :: cs => p == c && globMatchFuel fuel ps cs

/-- Glob matching, standing in for the external `globset` crate (the spec
places the glob engine itself out of scope; only match/no-match per file
name is consumed by the engine). -/
def globMatch (ps s : List Char) : Bool :=
  globMatchFuel (ps.length + s.length + 1) ps s

/-- `fn glob` (src/lib.rs): an empty pattern is replaced by `*`
(match-everything) before compiling. -/
def glob (pattern : String) (name : String) : Bool :=
  globMatch (if pattern.isEmpty then "*" else pattern).toList name.toList

/-- Local filesystem node kind, as far as `Path::metadata().is_dir()`
distinguishes it. -/
inductive FsNode
  | dir
  | file
deriving DecidableEq, Repr

/-- The local filesystem: exact path strings to node kinds. -/
abbrev Fs := List (String × FsNode)

/-- Look up a path in the filesystem. -/
def fsLookup (fs : Fs) (p : String) : Option FsNode :=
  match fs.find? (fun e => e.1 == p) with
  | some e => some e.2
  | none => none

/-- Add (or overwrite) an entry. -/
def fsInsert (fs : Fs) (p : String) (n : FsNode) : Fs :=
  (p, n) :: (fs : List (String × FsNode)).filter (fun e => e.1 != p)

/-- Does the path string end in the path separator? -/
def endsWithSep (p : String) : Bool :=
  p.toList.getLast? == some '/'

/-- `PathBuf::push` on string paths: append a component, inserting a
separator unless one is already present. -/
def pathPush (p c : String) : String :=
  if p.isEmpty then c
  else if endsWithSep p then p ++ c
  else p ++ "/" ++ c

/-- `config::OverwritePolicy` (src/config.rs). -/
inductive OverwritePolicy
  | always
  | never
  | ask
deriving DecidableEq, Repr

/-- Observable effects of a copy run, in order. -/
inductive Event
  | probedDst (path : String)
  | fetchedList (hw : Nat)
  | createdDir (path : String)
  | prompted (dst : String)
  | downloaded (hw : Nat) (name : String) (dst : String)
  | uploaded (src : String) (hw : Nat) (name : String)
  | warned (e : GscError)
deriving DecidableEq, Repr

/-- The world state threaded through a copy run: the server listing
(read-only), the local filesystem, the pending interactive input lines, the
batch's `OverwritePolicy` (the mutable reference of `cp_dn`), the
`had_warning` flag, and the trace of effects so far. -/
structure St where
  server : Nat → List FileMeta
  fs : Fs
  input : List String
  policy : OverwritePolicy
  hadWarning : Bool
  trace : List Event

/-- Append one trace event. -/
def St.addEvent (s : St) (e : Event) : St :=
  { s with trace := s.trace ++ [e] }

/-- How a run ends: normally, with a gsc error, or by `std::process::exit`. -/
inductive Outcome (α : Type)
  | ok (a : α)
  | err (e : GscError)
  | exited (code : Nat)
deriving Repr, DecidableEq

/-- The execution monad: explicit state passing with early exit on errors and
process exits. -/
def M (α : Type) : Type := St → Outcome α × St

instance : Monad M where
  pure a := fun s => (Outcome.ok a, s)
  bind m f := fun s =>
    match m s with
    | (Outcome.ok a, s') => f a s'
    | (Outcome.err e, s') => (Outcome.err e, s')
    | (Outcome.exited c, s') => (Outcome.exited c, s')

/-- Raise a gsc error (Rust `return Err(..)` / `?`). -/
def throwE {α : Type} (e : GscError) : M α := fun s => (Outcome.err e, s)

/-! ## Interactive overwrite confirmation (src/config.rs) -/

/-- The first character of a `read_line` buffer, lowercased — the value of
`buf.chars().flat_map(char::to_lowercase).next()` in the source (for the
ASCII answers the prompt understands, `to_lowercase` yields one character). -/
def firstLower (buf : String) : Option Char :=
  buf.toList.head?.map Char.toLower

/-- The interactive loop of `OverwritePolicy::confirm_overwrite` in the `Ask`
state: consume input lines until an answer is recognized. Returns the
outcome, whether the policy is switched to `Always` (the `a` answer), the
remaining input, and the number of prompts printed. An empty buffer models a
closed stream (`std::process::exit(1)` in the source); `c` is
`std::process::exit(0)`; unrecognized input prints the legend and re-prompts. -/
def ask_loop (input : List String) : Outcome Bool × Bool × List String × Nat :=
  match input with
  | [] => (Outcome.exited 1, false, [], 1)
  | buf :: rest =>
    if buf.isEmpty then (Outcome.exited 1, false, rest, 1)
    else
      match firstLower buf with
      | some 'y' => (Outcome.ok true, false, rest, 1)
      | some 'n' => (Outcome.ok false, false, rest, 1)
      | some 'a' => (Outcome.ok true, true, rest, 1)
      | some 'c' => (Outcome.exited 0, false, rest, 1)
      | _ =>
        let r := ask_loop rest
        (r.1, r.2.1, r.2.2.1, r.2.2.2 + 1)

/-- `OverwritePolicy::confirm_overwrite` (src/config.rs): `Always` proceeds,
`Never` raises `DestinationFileExists`, `Ask` runs the interactive loop. -/
def confirm_overwrite (dst : String) : M Bool := fun s =>
  match s.policy with
  | OverwritePolicy.always => (Outcome.ok true, s)
  | OverwritePolicy.never => (Outcome.err (GscError.destinationFileExists dst), s)
  | OverwritePolicy.ask =>
    let r := ask_loop s.input
    (r.1,
     { s with
        input := r.2.2.1
        policy := if r.2.1 then OverwritePolicy.always else OverwritePolicy.ask
        trace := s.trace ++ List.replicate r.2.2.2 (Event.prompted dst) })

/-! ## Engine primitives (src/lib.rs helper methods) -/

/-- `GscClient::is_okay_to_write_local` (src/lib.rs): consult the overwrite
policy exactly when something already exists at the destination path. -/
def is_okay_to_write_local (dst : String) : M Bool := fun s =>
  if (fsLookup s.fs dst).isSome then confirm_overwrite dst s
  else (Outcome.ok true, s)

/-- `soft_create_dir` (src/lib.rs): `fs::create_dir` with the
`AlreadyExists` error swallowed (an existing entry is left untouched). -/
def soft_create_dir (path : String) : M Unit := fun s =>
  if (fsLookup s.fs path).isSome then (Outcome.ok (), s)
  else
    (Outcome.ok (),
     { s with
        fs := fsInsert s.fs path FsNode.dir
        trace := s.trace ++ [Event.createdDir path] })

/-- `GscClient::download_file` (src/lib.rs): the transfer itself is out of
scope; the model records the transfer and creates the destination file. -/
def download_file (hw : Nat) (meta : FileMeta) (dst : String) : M Unit := fun s =>
  (Outcome.ok (),
   { s with
      fs := fsInsert s.fs dst FsNode.file
      trace := s.trace ++ [Event.downloaded hw meta.name dst] })

/-- `GscClient::upload_file` (src/lib.rs): `fs::File::open(&src)?` fails
unless a regular file exists at the local source path; the PUT transfer
itself is out of scope and is recorded as an event. -/
def upload_file (src : String) (dst : RemotePattern) : M Unit := fun s =>
  match fsLookup s.fs src with
  | some FsNode.file =>
    (Outcome.ok (), { s with trace := s.trace ++ [Event.uploaded src dst.hw dst.name] })
  | _ => (Outcome.err (GscError.localIoError src), s)

/-- `GscClient::warn` (src/lib.rs): print the message and set the
`had_warning` flag. -/
def warn (e : GscError) : M Unit := fun s =>
  (Outcome.ok (), { s with hadWarning := true, trace := s.trace ++ [Event.warned e] })

/-- `GscClient::try_warn` (src/lib.rs): run the action; a gsc error is
converted into a warning and swallowed (a process exit still terminates
everything — `std::process::exit` cannot be caught). -/
def try_warn (m : M Unit) : M Unit := fun s =>
  match m s with
  | (Outcome.ok a, s') => (Outcome.ok a, s')
  | (Outcome.err e, s') =>
    (Outcome.ok (), { s' with hadWarning := true, trace := s'.trace ++ [Event.warned e] })
  | (Outcome.exited c, s') => (Outcome.exited c, s')

/-- `GscClient::fetch_raw_file_list` + JSON decoding (src/lib.rs): the HTTP
GET is out of scope; the model reads the server listing and records the
fetch. -/
def fetch_file_list (hw : Nat) : M (List FileMeta) := fun s =>
  (Outcome.ok (s.server hw), s.addEvent (Event.fetchedList hw))

/-- The files of `rpat.hw` whose names match `rpat.name` under `fn glob`'s
empty-pattern-is-match-all convention — the value
`fetch_matching_file_list` produces from a server listing. -/
def matchingFiles (server : Nat → List FileMeta) (rpat : RemotePattern) : List FileMeta :=
  (server rpat.hw).filter (fun f => glob rpat.name f.name)

/-- `GscClient::fetch_matching_file_list` (src/lib.rs): fetch the homework's
list and keep the files matching the pattern. -/
def fetch_matching_file_list (rpat : RemotePattern) : M (List FileMeta) := do
  let files ← fetch_file_list rpat.hw
  pure (files.filter (fun f => glob rpat.name f.name))

/-- `GscClient::fetch_nonempty_matching_file_list` (src/lib.rs): as above but
an empty result is `NoSuchRemoteFile`. -/
def fetch_nonempty_matching_file_list (rpat : RemotePattern) : M (List FileMeta) := do
  let result ← fetch_matching_file_list rpat
  if result.isEmpty then throwE (GscError.noSuchRemoteFile rpat)
  else pure result

/-- `GscClient::fetch_one_matching_filename` (src/lib.rs): zero matches is
`NoSuchRemoteFile`, more than one is `MultipleSourcesOneDestination`, one
match is returned (`files.pop()` takes the single element). -/
def fetch_one_matching_filename (rpat : RemotePattern) : M FileMeta := do
  let files ← fetch_matching_file_list rpat
  match files with
  | [] => throwE (GscError.noSuchRemoteFile rpat)
  | [m] => pure m
  | _ => throwE GscError.multipleSourcesOneDestination

/-! ## The copy-resolution engine (src/lib.rs: cp, cp_dn, cp_up, download_hw) -/

/-- The body of the per-file loop of `GscClient::download_hw` (src/lib.rs):
skip `Log`-purpose files; otherwise create the purpose-named subdirectory on
demand, and write the file under it, gated by the overwrite check. -/
def download_hw_loop (hw : Nat) (dst : String) : List FileMeta → M Unit
  | [] => pure ()
  | m :: rest => do
    if m.purpose = FilePurpose.log then
      download_hw_loop hw dst rest
    else
      let d1 := pathPush dst m.purpose.to_dir
      soft_create_dir d1
      let file_dst := pathPush d1 m.name
      if (← is_okay_to_write_local file_dst) then
        download_file hw m file_dst
      download_hw_loop hw dst rest

/-- `GscClient::download_hw` (src/lib.rs): fetch the whole-homework file
list (`HwQual::just_hw hw`, an empty pattern) and fan it out. -/
def download_hw (hw : Nat) (dst : String) : M Unit := do
  let src_metas ← fetch_matching_file_list { hw := hw, name := "" }
  download_hw_loop hw dst src_metas

/-- The source-collection loop at the top of `GscClient::cp_dn`
(src/lib.rs): every source must be remote; the first local source aborts
with the local-to-local error. -/
def collect_remote_srcs (dst : String) : List CpArg → Except GscError (List RemotePattern)
  | [] => Except.ok []
  | CpArg.Local filename :: _ => Except.error (cannot_copy_local_to_local filename dst)
  | CpArg.Remote rpat :: rest =>
    (collect_remote_srcs dst rest).map (fun l => rpat :: l)

/-- The destination classification of `cp_dn` (src/lib.rs, `enum DstType`). -/
inductive DstType
  | dir
  | file
  | doesNotExist
deriving DecidableEq, Repr

/-- The `dst.metadata()` probe of `cp_dn` (src/lib.rs): classify the
destination path, recording the filesystem probe. -/
def probe_dst (dst : String) : M DstType := fun s =>
  (Outcome.ok
    (match fsLookup s.fs dst with
     | some FsNode.dir => DstType.dir
     | some FsNode.file => DstType.file
     | none => DstType.doesNotExist),
   s.addEvent (Event.probedDst dst))

/-- The per-matched-file loop of `cp_dn`'s `Dir` case (src/lib.rs): write
each matched file directly under `dst`, gated by the overwrite check. -/
def cp_dn_dir_files_loop (hw : Nat) (dst : String) : List FileMeta → M Unit
  | [] => pure ()
  | src_meta :: rest => do
    let file_dst := pathPush dst src_meta.name
    if (← is_okay_to_write_local file_dst) then
      download_file hw src_meta file_dst
    cp_dn_dir_files_loop hw dst rest

/-- The per-source-pattern body of `cp_dn`'s `Dir` case (src/lib.rs): the
closure handed to `try_warn` for one source pattern. -/
def cp_dn_dir_one_src (dst : String) (src_rpat : RemotePattern) : M Unit := do
  if src_rpat.is_whole_hw then
    download_hw src_rpat.hw dst
  else
    let src_metas ← fetch_nonempty_matching_file_list src_rpat
    cp_dn_dir_files_loop src_rpat.hw dst src_metas

/-- The pattern loop of `cp_dn`'s `Dir` case (src/lib.rs): each source
pattern is processed under `try_warn`, so its failures are isolated. -/
def cp_dn_dir_loop (dst : String) : List RemotePattern → M Unit
  | [] => pure ()
  | src_rpat :: rest => do
    try_warn (cp_dn_dir_one_src dst src_rpat)
    cp_dn_dir_loop dst rest

/-- `GscClient::cp_dn` (src/lib.rs): the download branch of `cp`. -/
def cp_dn (raw_srcs : List CpArg) (dst : String) : M Unit := do
  match collect_remote_srcs dst raw_srcs with
  | Except.error e => throwE e
  | Except.ok src_rpats => do
    let dst_type ← probe_dst dst
    match dst_type with
    | DstType.file =>
      match src_rpats with
      | [src_rpat] =>
        if src_rpat.is_whole_hw then
          throwE (GscError.sourceHwToDestinationFile src_rpat.hw dst)
        else do
          let src_file ← fetch_one_matching_filename src_rpat
          if (← confirm_overwrite dst) then
            download_file src_rpat.hw src_file dst
      | _ => throwE GscError.multipleSourcesOneDestination
    | DstType.doesNotExist =>
      match src_rpats with
      | [src_rpat] =>
        if src_rpat.is_whole_hw then do
          soft_create_dir dst
          download_hw src_rpat.hw dst
        else do
          let src_file ← fetch_one_matching_filename src_rpat
          download_file src_rpat.hw src_file dst
      | _ => throwE GscError.multipleSourcesOneDestination
    | DstType.dir => cp_dn_dir_loop dst src_rpats

/-- The source-collection loop at the top of `GscClient::cp_up`
(src/lib.rs): every source must be local; the first remote source aborts
with the remote-to-remote error. -/
def collect_local_srcs (dst : RemotePattern) : List CpArg → Except GscError (List String)
  | [] => Except.ok []
  | CpArg.Local filename :: rest =>
    (collect_local_srcs dst rest).map (fun l => filename :: l)
  | CpArg.Remote rpat :: _ => Except.error (GscError.cannotCopyRemoteToRemote rpat dst)

/-- Split a character list on a separator character. -/
def splitOnChar (c : Char) : List Char → List (List Char)
  | [] => [[]]
  | x :: rest =>
    match splitOnChar c rest with
    | [] => [[]]
    | g :: gs => if x = c then [] :: g :: gs else (x :: g) :: gs

/-- `Path::file_name` on string paths: the final non-empty, non-`.`
component, unless it is `..` or there is none. -/
def base_filename (p : String) : Option String :=
  match (((splitOnChar '/' p.toList).map String.mk).filter
      (fun c => c ≠ "" && c ≠ ".")).getLast? with
  | some c => if c = ".." then none else some c
  | none => none

/-- `GscClient::get_base_filename` (src/lib.rs): a path with no final
component is `BadLocalPath`. (The `FilenameNotUtf8` branch is unreachable in
the model, where all strings are valid UTF-8.) -/
def get_base_filename (p : String) : Except GscError String :=
  match base_filename p with
  | none => Except.error (GscError.badLocalPath p)
  | some s => Except.ok s

/-- The per-source loop of `cp_up`'s whole-homework branch (src/lib.rs): a
failure to derive the base filename is warned and skipped; the upload itself
is followed by `?`, so its failure propagates. -/
def cp_up_whole_loop (dst : RemotePattern) : List String → M Unit
  | [] => pure ()
  | src :: rest => do
    match get_base_filename src with
    | Except.error e => do
      warn e
      cp_up_whole_loop dst rest
    | Except.ok filename => do
      upload_file src { dst with name := filename }
      cp_up_whole_loop dst rest

/-- `GscClient::cp_up` (src/lib.rs): the upload branch of `cp`. -/
def cp_up (raw_srcs : List CpArg) (dst : RemotePattern) : M Unit := do
  match collect_local_srcs dst raw_srcs with
  | Except.error e => throwE e
  | Except.ok srcs =>
    if dst.is_whole_hw then
      cp_up_whole_loop dst srcs
    else
      match srcs with
      | [src] => do
        let dsts ← fetch_matching_file_list dst
        match dsts with
        | [] => upload_file src { dst with name := dst.name }
        | [d] => upload_file src { dst with name := d.name }
        | _ => throwE (GscError.destinationPatternIsMultiple dst (dsts.map FileMeta.name))
      | _ => throwE GscError.multipleSourcesOneDestination

/-- `GscClient::cp` (src/lib.rs): dispatch on the destination's tag. -/
def cp (srcs : List CpArg) (dst : CpArg) : M Unit :=
  match dst with
  | CpArg.Local filename => cp_dn srcs filename
  | CpArg.Remote rpat => cp_up srcs rpat

/-! ## The remote-path token parsers (src/bin/gsc.rs) -/

/-- The result of parsing one token: success, a `SyntaxError{class, literal}`,
or a panic (an `unwrap` of a failed integer parse). -/
inductive PResult (α : Type)
  | ok (a : α)
  | err (expected thing : String)
  | panic
deriving DecidableEq, Repr

/-- Rust's `usize::from_str` on a captured digit run: fails when the value
does not fit in the 64-bit machine word. (Call sites only ever pass the
nonempty all-digit capture of `\d+`.) -/
def parseUsize (ds : List Char) : Option Nat :=
  if ds.isEmpty then none
  else if ds.all Char.isDigit then
    if digitsVal ds < 2 ^ 64 then some (digitsVal ds) else none
  else none

/-- The captures of `HW_OPT_FILE = ^hw(\d+)(?::(.*))?$` (src/bin/gsc.rs):
after `hw`, the (maximal) digit run, then optionally a colon and the rest.
In the Rust regex crate `.` does not match a newline (no `(?s)` flag) and
`$` anchors at the end of the haystack, so the name capture must be free of
newlines for the regex to match at all. Returns `(digits, optional name)`
when the regex matches. -/
def hwOptFileCapture (cs : List Char) : Option (List Char × Option (List Char)) :=
  match cs with
  | 'h' :: 'w' :: rest =>
    let ds := rest.takeWhile Char.isDigit
    let tail := rest.dropWhile Char.isDigit
    if ds.isEmpty then none
    else
      match tail with
      | [] => some (ds, none)
      | ':' :: r => if r.all (fun c => c != '\n') then some (ds, some r) else none
      | _ => none
  | _ => none

/-- The capture of `HW_ONLY = ^hw(\d+):?$` (src/bin/gsc.rs). -/
def hwOnlyCapture (cs : List Char) : Option (List Char) :=
  match cs with
  | 'h' :: 'w' :: rest =>
    let ds := rest.takeWhile Char.isDigit
    let tail := rest.dropWhile Char.isDigit
    if ds.isEmpty then none
    else
      match tail with
      | [] => some ds
      | [':'] => some ds
      | _ => none
  | _ => none

/-- The captures of `HW_FILE = ^hw(\d+):(.*)$` (src/bin/gsc.rs). As in
`hwOptFileCapture`, the Rust regex's `.` excludes newlines, so a name
containing a newline makes the whole regex fail to match. -/
def hwFileCapture (cs : List Char) : Option (List Char × List Char) :=
  match cs with
  | 'h' :: 'w' :: rest =>
    let ds := rest.takeWhile Char.isDigit
    let tail := rest.dropWhile Char.isDigit
    if ds.isEmpty then none
    else
      match tail with
      | ':' :: r => if r.all (fun c => c != '\n') then some (ds, r) else none
      | _ => none
  | _ => none

/-- `parse_hw` (src/bin/gsc.rs): the integer parse is chained with
`.ok()`/`and_then`, so an overflowing digit run falls through to the
`SyntaxError` branch rather than panicking. -/
def parse_hw (s : String) : PResult Nat :=
  match hwOnlyCapture s.toList with
  | some ds =>
    match parseUsize ds with
    | some i => PResult.ok i
    | none => PResult.err "homework spec" s
  | none => PResult.err "homework spec" s

/-- `parse_hw_opt_file` (src/bin/gsc.rs): after the regex matches, the digit
capture is parsed with `capture1.parse().unwrap()` — an overflowing digit
run panics. A missing second capture yields an empty name. -/
def parse_hw_opt_file (s : String) : PResult RemotePattern :=
  match hwOptFileCapture s.toList with
  | none => PResult.err "homework or file spec" s
  | some (ds, opt) =>
    match parseUsize ds with
    | none => PResult.panic
    | some hw => PResult.ok { hw := hw, name := String.mk (opt.getD []) }

/-- `parse_hw_file` (src/bin/gsc.rs): like `parse_hw_opt_file` but the colon
and name are required; the same `unwrap` panics on overflow. -/
def parse_hw_file (s : String) : PResult RemotePattern :=
  match hwFileCapture s.toList with
  | none => PResult.err "remote file or homework spec" s
  | some (ds, r) =>
    match parseUsize ds with
    | none => PResult.panic
    | some hw => PResult.ok { hw := hw, name := String.mk r }

/-! ## Auxiliary query and example-world definitions -/

/-- The first local path among the `cp` operands, if any. -/
def first_local : List CpArg → Option String
  | [] => none
  | CpArg.Local f :: _ => some f
  | CpArg.Remote _ :: rest => first_local rest

/-- The target path the whole-homework fan-out computes for a file:
`dst/<purpose dir>/<name>`. -/
def fanOutTarget (dst : String) (m : FileMeta) : String :=
  pathPush (pathPush dst m.purpose.to_dir) m.name

/-- A small fixed server listing used for concrete runs: homework 3 holds a
source file, a test file and a log; homework 4 holds one source file;
homework 5 holds two `.c` source files. -/
def demoServer : Nat → List FileMeta := fun h =>
  if h = 3 then
    [{ name := "a.txt", purpose := FilePurpose.source },
     { name := "b.txt", purpose := FilePurpose.test },
     { name := "run.log", purpose := FilePurpose.log }]
  else if h = 4 then [{ name := "c.txt", purpose := FilePurpose.source }]
  else if h = 5 then
    [{ name := "x.c", purpose := FilePurpose.source },
     { name := "y.c", purpose := FilePurpose.source }]
  else []

/-- A starting state over `demoServer` with a given filesystem, input and
overwrite policy, no warnings and an empty trace. -/
def mkSt (fs : Fs) (input : List String) (policy : OverwritePolicy) : St :=
  { server := demoServer, fs := fs, input := input, policy := policy,
    hadWarning := false, trace := [] }

/-! ## General lemmas about the execution monad -/

@[simp] theorem pure_apply {α : Type} (a : α) (s : St) :
    (pure a : M α) s = (Outcome.ok a, s) := rfl

@[simp] theorem bind_apply {α β : Type} (m : M α) (f : α → M β) (s : St) :
    (m >>= f) s =
      match m s with
      | (Outcome.ok a, s') => f a s'
      | (Outcome.err e, s') => (Outcome.err e, s')
      | (Outcome.exited c, s') => (Outcome.exited c, s') := rfl

@[simp] theorem throwE_apply {α : Type} (e : GscError) (s : St) :
    (throwE e : M α) s = (Outcome.err e, s) := rfl

@[simp] theorem fetch_matching_file_list_apply (rpat : RemotePattern) (s : St) :
    fetch_matching_file_list rpat s =
      (Outcome.ok (matchingFiles s.server rpat), s.addEvent (Event.fetchedList rpat.hw)) := rfl

theorem ask_loop_flag_ok (input : List String) :
    (ask_loop input).2.1 = true → (ask_loop input).1 = Outcome.ok true := by
  induction input with
  | nil => simp [ask_loop]
  | cons buf rest ih =>
    simp only [ask_loop]
    split
    · simp
    · split <;> simp_all

/-! ## Claim theorems -/

/-- C7: the only mutation `confirm_overwrite` ever performs on the policy is
`Ask → Always` (taken on the overwrite-all response, in which case the call
returns `true`); in the `Always` state every call returns `true` and leaves
the entire state unchanged. In particular no call ever sets the policy to
`Never` or back to `Ask`. -/
theorem confirm_overwrite_only_transition (dst : String) (s : St) :
    ((confirm_overwrite dst s).2.policy = s.policy ∨
      (s.policy = OverwritePolicy.ask ∧
       (confirm_overwrite dst s).2.policy = OverwritePolicy.always ∧
       (confirm_overwrite dst s).1 = Outcome.ok true)) ∧
    (s.policy = OverwritePolicy.always →
      confirm_overwrite dst s = (Outcome.ok true, s)) := by
  constructor
  · cases hp : s.policy with
    | always => left; simp [confirm_overwrite, hp]
    | never => left; simp [confirm_overwrite, hp]
    | ask =>
      by_cases hf : (ask_loop s.input).2.1 = true
      · exact Or.inr ⟨rfl, by simp [confirm_overwrite, hp, hf],
          by simpa [confirm_overwrite, hp] using ask_loop_flag_ok s.input hf⟩
      · left
        simp [confirm_overwrite, hp, Bool.eq_false_iff.mpr hf]
  · intro h
    simp [confirm_overwrite, h]

/-- Witness for C7 at a concrete state: with the policy already `Always`,
the call proceeds and changes nothing. -/
theorem confirm_overwrite_only_transition_witness :
    confirm_overwrite "f.txt" (mkSt [] [] OverwritePolicy.always) =
      (Outcome.ok true, mkSt [] [] OverwritePolicy.always) :=
  (confirm_overwrite_only_transition "f.txt" (mkSt [] [] OverwritePolicy.always)).2 rfl

theorem collect_remote_srcs_first_local (dst : String) :
    ∀ (srcs : List CpArg) (f : String), first_local srcs = some f →
      collect_remote_srcs dst srcs = Except.error (cannot_copy_local_to_local f dst) := by
  intro srcs
  induction srcs with
  | nil => intro f h; simp [first_local] at h
  | cons a rest ih =>
    intro f h
    cases a with
    | Local g =>
      simp [first_local] at h
      subst h
      rfl
    | Remote r =>
      simp only [first_local] at h
      simp [collect_remote_srcs, ih f h, Except.map]

/-- C8: `cp` onto a `Local` destination with any `Local` argument among the
sources fails with the local-to-local error of the first local source, with
the state completely unchanged (no trace event at all — in particular the
destination metadata probe, the fetches and the writes never happen); the
error is the hint-carrying `CannotCopyLocalToLocalExtra` exactly when the
destination string matches `hw<digits>`, plain `CannotCopyLocalToLocal`
otherwise. -/
theorem cp_local_dst_local_src (srcs : List CpArg) (dst : String) (s : St) (f : String)
    (h : first_local srcs = some f) :
    cp srcs (CpArg.Local dst) s = (Outcome.err (cannot_copy_local_to_local f dst), s) ∧
    (looksLikeHwNum dst = true →
      cannot_copy_local_to_local f dst =
        GscError.cannotCopyLocalToLocalExtra f dst
          ("Did you leave out the colon (" ++ dst ++ ":)?")) ∧
    (looksLikeHwNum dst = false →
      cannot_copy_local_to_local f dst = GscError.cannotCopyLocalToLocal f dst) := by
  refine ⟨?_, ?_, ?_⟩
  · show cp_dn srcs dst s = _
    unfold cp_dn
    rw [collect_remote_srcs_first_local dst srcs f h]
    rfl
  · intro hw
    simp [cannot_copy_local_to_local, hw]
  · intro hw
    simp [cannot_copy_local_to_local, hw]

/-- Witness for C8 at concrete input: one remote and one local source, a
bare `hw3` destination — the hint-carrying error, untouched state. -/
theorem cp_local_dst_local_src_witness :
    cp [CpArg.Remote { hw := 2, name := "x" }, CpArg.Local "a.c"] (CpArg.Local "hw3")
        (mkSt [] [] OverwritePolicy.ask) =
      (Outcome.err
        (GscError.cannotCopyLocalToLocalExtra "a.c" "hw3"
          ("Did you leave out the colon (" ++ "hw3" ++ ":)?")),
       mkSt [] [] OverwritePolicy.ask) := by
  have h := cp_local_dst_local_src [CpArg.Remote { hw := 2, name := "x" }, CpArg.Local "a.c"]
    "hw3" (mkSt [] [] OverwritePolicy.ask) "a.c" (by decide)
  rw [h.1, h.2.1 (by decide)]

/-- C10: on a homework number exceeding the 64-bit machine range the
regex-matching parsers `parse_hw_opt_file` and `parse_hw_file` panic (they
unwrap the integer parse), while `parse_hw` returns a `SyntaxError` for the
same overflowing inputs. -/
theorem overflow_parsers_contrast :
    parse_hw_opt_file "hw99999999999999999999:a" = PResult.panic ∧
    parse_hw_file "hw99999999999999999999:a" = PResult.panic ∧
    parse_hw "hw99999999999999999999:a" =
      PResult.err "homework spec" "hw99999999999999999999:a" ∧
    parse_hw "hw99999999999999999999" =
      PResult.err "homework spec" "hw99999999999999999999" ∧
    parse_hw_opt_file "hw99999999999999999999" = PResult.panic := by
  exact ⟨by decide, by decide, by decide, by decide, by decide⟩

/-- C9 counterexample: `hw03:a` is a valid remote-pattern token of the form
`hw<N>:<name>`, but displaying its parse yields `hw3:a`, not the input. -/
theorem display_parse_not_exact_roundtrip :
    parse_hw_opt_file "hw03:a" = PResult.ok { hw := 3, name := "a" } ∧
    RemotePattern.display { hw := 3, name := "a" } = "hw3:a" ∧
    "hw3:a" ≠ "hw03:a" := by
  exact ⟨by decide, by decide, by decide⟩

/-! ### Decimal-printing facts used by the round-trip theorem -/

theorem digitChar_isDigit (d : Nat) (h : d < 10) : (digitChar d).isDigit = true := by
  interval_cases d <;> decide

theorem digitChar_toNat (d : Nat) (h : d < 10) : (digitChar d).toNat = 48 + d := by
  interval_cases d <;> decide

theorem natDigitsFuel_ne_nil (fuel n : Nat) : natDigitsFuel fuel n ≠ [] := by
  cases fuel with
  | zero => simp [natDigitsFuel]
  | succ fuel =>
    simp only [natDigitsFuel]
    split <;> simp

theorem natDigitsFuel_all_digit (fuel : Nat) :
    ∀ n, ∀ c ∈ natDigitsFuel fuel n, c.isDigit = true := by
  induction fuel with
  | zero =>
    intro n c hc
    simp [natDigitsFuel] at hc
    subst hc
    exact digitChar_isDigit _ (Nat.mod_lt _ (by omega))
  | succ fuel ih =>
    intro n c hc
    simp only [natDigitsFuel] at hc
    split at hc
    · next h10 =>
      simp at hc
      subst hc
      exact digitChar_isDigit _ h10
    · simp at hc
      rcases hc with hc | hc
      · exact ih _ _ hc
      · subst hc
        exact digitChar_isDigit _ (Nat.mod_lt _ (by omega))

theorem digitsVal_natDigitsFuel :
    ∀ fuel n, n ≤ fuel → digitsVal (natDigitsFuel fuel n) = n := by
  intro fuel
  induction fuel with
  | zero =>
    intro n h
    interval_cases n
    decide
  | succ fuel ih =>
    intro n h
    simp only [natDigitsFuel]
    split
    · next h10 =>
      simp [digitsVal, digitChar_toNat _ h10]
    · next h10 =>
      have hdiv : n / 10 ≤ fuel := by
        have := Nat.div_lt_self (by omega : 0 < n) (by omega : 1 < 10)
        omega
      have hval := ih (n / 10) hdiv
      simp only [digitsVal, List.foldl_append] at hval ⊢
      rw [hval]
      simp only [List.foldl_cons, List.foldl_nil]
      rw [digitChar_toNat _ (Nat.mod_lt _ (by omega))]
      omega

theorem digitsVal_natDigits (n : Nat) : digitsVal (natDigits n) = n :=
  digitsVal_natDigitsFuel n n le_rfl

theorem parseUsize_natDigits (n : Nat) (hn : n < 2 ^ 64) :
    parseUsize (natDigits n) = some n := by
  unfold parseUsize
  rw [if_neg (by simp [List.isEmpty_iff, natDigitsFuel_ne_nil, natDigits]),
    if_pos (by simpa [List.all_eq_true] using natDigitsFuel_all_digit n n),
    digitsVal_natDigits, if_pos hn]

theorem takeWhile_append_stop {p : Char → Bool} (l : List Char) (c : Char) (r : List Char)
    (hl : ∀ x ∈ l, p x = true) (hc : p c = false) :
    (l ++ c :: r).takeWhile p = l ∧ (l ++ c :: r).dropWhile p = c :: r := by
  induction l with
  | nil => simp [List.takeWhile_cons, List.dropWhile_cons, hc]
  | cons x xs ih =>
    have hx : p x = true := hl x (by simp)
    have ih' := ih (fun y hy => hl y (by simp [hy]))
    simp [List.takeWhile_cons, List.dropWhile_cons, hx, ih'.1, ih'.2]

theorem takeWhile_all (p : Char → Bool) (l : List Char) (hl : ∀ x ∈ l, p x = true) :
    l.takeWhile p = l ∧ l.dropWhile p = [] := by
  induction l with
  | nil => simp
  | cons x xs ih =>
    have hx : p x = true := hl x (by simp)
    have ih' := ih (fun y hy => hl y (by simp [hy]))
    simp [List.takeWhile_cons, List.dropWhile_cons, hx, ih'.1, ih'.2]

theorem toList_append (a b : String) : (a ++ b).toList = a.toList ++ b.toList := rfl

/-- C9 amended: the exact round-trip `display (parse s) = s` holds for the
remote-pattern tokens in the `HW_OPT_FILE` regex's language whose digit run
is the canonical decimal rendering of a homework number within the machine
range (the counterexample shows it fails for leading zeros, and overflowing
numbers panic): for a name free of newlines (the regex's `.` does not match
`\n`, so a token with a newline in the name is a `SyntaxError`, as the last
conjunct records), parsing `hw<N>:<name>` yields `{N, name}`, displaying
`{N, name}` reproduces the token, the whole-homework token `hw<N>` parses
to the same value as `hw<N>:`, and its display is the normalized `hw<N>:`. -/
theorem display_parse_roundtrip_canonical (n : Nat) (hn : n < 2 ^ 64) (name : String)
    (hname : name.toList.all (fun c => c != '\n') = true) :
    parse_hw_opt_file ("hw" ++ natDecimal n ++ ":" ++ name) = PResult.ok { hw := n, name := name } ∧
    RemotePattern.display { hw := n, name := name } = "hw" ++ natDecimal n ++ ":" ++ name ∧
    parse_hw_opt_file ("hw" ++ natDecimal n) = PResult.ok { hw := n, name := "" } ∧
    parse_hw_opt_file ("hw" ++ natDecimal n ++ ":") = PResult.ok { hw := n, name := "" } ∧
    RemotePattern.display { hw := n, name := "" } = "hw" ++ natDecimal n ++ ":" ∧
    parse_hw_opt_file "hw3:a\nb" = PResult.err "homework or file spec" "hw3:a\nb" := by
  have hdig : ∀ x ∈ natDigits n, Char.isDigit x = true := natDigitsFuel_all_digit n n
  have hcolon : Char.isDigit ':' = false := by decide
  have hfull : ("hw" ++ natDecimal n ++ ":" ++ name).toList =
      'h' :: 'w' :: (natDigits n ++ ':' :: name.toList) := by
    have h0 : ("hw" ++ natDecimal n ++ ":" ++ name).toList =
        ('h' :: 'w' :: natDigits n ++ [':']) ++ name.toList := rfl
    rw [h0]
    simp
  have honly : ("hw" ++ natDecimal n).toList = 'h' :: 'w' :: natDigits n := rfl
  have hcol : ("hw" ++ natDecimal n ++ ":").toList = 'h' :: 'w' :: (natDigits n ++ [':']) := by
    have h0 : ("hw" ++ natDecimal n ++ ":").toList = ('h' :: 'w' :: natDigits n) ++ [':'] := rfl
    rw [h0]
    simp
  have hsplit := takeWhile_append_stop (natDigits n) ':' name.toList hdig hcolon
  have hallw := takeWhile_all Char.isDigit (natDigits n) hdig
  have hsplitc := takeWhile_append_stop (natDigits n) ':' [] hdig hcolon
  have hne : (natDigits n).isEmpty = false := by
    simp [List.isEmpty_iff, natDigits, natDigitsFuel_ne_nil]
  refine ⟨?_, rfl, ?_, ?_, ?_, by decide⟩
  · unfold parse_hw_opt_file
    rw [hfull]
    simp only [hwOptFileCapture, hsplit.1, hsplit.2, hne, Bool.false_eq_true, if_false,
      hname, if_true, parseUsize_natDigits n hn]
    rfl
  · unfold parse_hw_opt_file
    rw [honly]
    simp only [hwOptFileCapture, hallw.1, hallw.2, hne, Bool.false_eq_true, if_false,
      parseUsize_natDigits n hn]
    rfl
  · unfold parse_hw_opt_file
    rw [hcol]
    simp only [hwOptFileCapture, hsplitc.1, hsplitc.2, hne, Bool.false_eq_true, if_false,
      List.all_nil, if_true, parseUsize_natDigits n hn]
    rfl
  · show "hw" ++ natDecimal n ++ ":" ++ "" = "hw" ++ natDecimal n ++ ":"
    simp [String.append_empty]

/-- Witness for C9's amended round-trip at homework 3 and the newline-free
name `a`. -/
theorem display_parse_roundtrip_canonical_witness :
    parse_hw_opt_file ("hw" ++ natDecimal 3 ++ ":" ++ "a") = PResult.ok { hw := 3, name := "a" } ∧
    RemotePattern.display { hw := 3, name := "a" } = "hw" ++ natDecimal 3 ++ ":" ++ "a" ∧
    parse_hw_opt_file ("hw" ++ natDecimal 3) = PResult.ok { hw := 3, name := "" } ∧
    parse_hw_opt_file ("hw" ++ natDecimal 3 ++ ":") = PResult.ok { hw := 3, name := "" } ∧
    RemotePattern.display { hw := 3, name := "" } = "hw" ++ natDecimal 3 ++ ":" ∧
    parse_hw_opt_file "hw3:a\nb" = PResult.err "homework or file spec" "hw3:a\nb" :=
  display_parse_roundtrip_canonical 3 (by decide) "a" (by decide)

/-! ### The download branch with a plain-file destination (C2) -/

theorem collect_remote_srcs_map (dst : String) (rps : List RemotePattern) :
    collect_remote_srcs dst (rps.map CpArg.Remote) = Except.ok rps := by
  induction rps with
  | nil => rfl
  | cons r rest ih => simp [collect_remote_srcs, ih, Except.map]

@[simp] theorem probe_dst_apply (dst : String) (s : St) :
    probe_dst dst s =
      (Outcome.ok
        (match fsLookup s.fs dst with
         | some FsNode.dir => DstType.dir
         | some FsNode.file => DstType.file
         | none => DstType.doesNotExist),
       s.addEvent (Event.probedDst dst)) := rfl

/-- C2: with the destination an existing plain file, `cp_dn` requires
exactly one source pattern (`MultipleSourcesOneDestination` otherwise),
rejects a whole-homework source with `SourceHwToDestinationFile`, and
otherwise resolves the pattern through `fetch_one_matching_filename`
(`NoSuchRemoteFile` on zero matches, `MultipleSourcesOneDestination` on
several) and writes the one match to the destination gated by the overwrite
confirmation. -/
theorem cp_dn_file_dst (s : St) (dst : String) (hdst : fsLookup s.fs dst = some FsNode.file) :
    (∀ rps : List RemotePattern, rps.length ≠ 1 →
      cp_dn (rps.map CpArg.Remote) dst s =
        (Outcome.err GscError.multipleSourcesOneDestination, s.addEvent (Event.probedDst dst))) ∧
    (∀ rp : RemotePattern, rp.is_whole_hw = true →
      cp_dn [CpArg.Remote rp] dst s =
        (Outcome.err (GscError.sourceHwToDestinationFile rp.hw dst),
         s.addEvent (Event.probedDst dst))) ∧
    (∀ rp : RemotePattern, rp.is_whole_hw = false →
      cp_dn [CpArg.Remote rp] dst s =
        (do
          let src_file ← fetch_one_matching_filename rp
          let ok ← confirm_overwrite dst
          if ok then download_file rp.hw src_file dst else pure ())
          (s.addEvent (Event.probedDst dst))) ∧
    (∀ rp : RemotePattern, rp.is_whole_hw = false → matchingFiles s.server rp = [] →
      (cp_dn [CpArg.Remote rp] dst s).1 = Outcome.err (GscError.noSuchRemoteFile rp)) ∧
    (∀ (rp : RemotePattern) (m1 m2 : FileMeta) (ms : List FileMeta), rp.is_whole_hw = false →
      matchingFiles s.server rp = m1 :: m2 :: ms →
      (cp_dn [CpArg.Remote rp] dst s).1 = Outcome.err GscError.multipleSourcesOneDestination) := by
  have hstep : ∀ rp : RemotePattern, rp.is_whole_hw = false →
      cp_dn [CpArg.Remote rp] dst s =
        (do
          let src_file ← fetch_one_matching_filename rp
          let ok ← confirm_overwrite dst
          if ok then download_file rp.hw src_file dst else pure ())
          (s.addEvent (Event.probedDst dst)) := by
    intro rp hw
    unfold cp_dn
    rw [show ([CpArg.Remote rp] : List CpArg) = [rp].map CpArg.Remote from rfl,
      collect_remote_srcs_map]
    simp [hdst, hw]
  refine ⟨?_, ?_, hstep, ?_, ?_⟩
  · intro rps hlen
    unfold cp_dn
    rw [collect_remote_srcs_map]
    match rps with
    | [] => simp [hdst]
    | [rp] => exact absurd rfl hlen
    | rp1 :: rp2 :: rest => simp [hdst]
  · intro rp hw
    unfold cp_dn
    rw [show ([CpArg.Remote rp] : List CpArg) = [rp].map CpArg.Remote from rfl,
      collect_remote_srcs_map]
    simp [hdst, hw]
  · intro rp hw hmatch
    rw [hstep rp hw]
    simp [fetch_one_matching_filename, St.addEvent, hmatch]
  · intro rp m1 m2 ms hw hmatch
    rw [hstep rp hw]
    simp [fetch_one_matching_filename, St.addEvent, hmatch]

/-- Witness for C2: a whole-homework source onto an existing plain file is
rejected with `SourceHwToDestinationFile`. -/
theorem cp_dn_file_dst_witness :
    cp_dn [CpArg.Remote { hw := 3, name := "" }] "notes.txt"
      (mkSt [("notes.txt", FsNode.file)] [] OverwritePolicy.ask) =
      (Outcome.err (GscError.sourceHwToDestinationFile 3 "notes.txt"),
       (mkSt [("notes.txt", FsNode.file)] [] OverwritePolicy.ask).addEvent
         (Event.probedDst "notes.txt")) :=
  (cp_dn_file_dst (mkSt [("notes.txt", FsNode.file)] [] OverwritePolicy.ask) "notes.txt"
    (by decide)).2.1 { hw := 3, name := "" } rfl

/-! ### The upload branch with a specific-file destination (C3) -/

theorem collect_local_srcs_map (dst : RemotePattern) (fnames : List String) :
    collect_local_srcs dst (fnames.map CpArg.Local) = Except.ok fnames := by
  induction fnames with
  | nil => rfl
  | cons f rest ih => simp [collect_local_srcs, ih, Except.map]

theorem collect_local_srcs_first_remote (dst : RemotePattern) :
    ∀ (pre : List CpArg) (r : RemotePattern) (post : List CpArg),
      (∀ a ∈ pre, ∃ f, a = CpArg.Local f) →
      collect_local_srcs dst (pre ++ CpArg.Remote r :: post) =
        Except.error (GscError.cannotCopyRemoteToRemote r dst) := by
  intro pre
  induction pre with
  | nil => intro r post _; rfl
  | cons a rest ih =>
    intro r post hpre
    obtain ⟨f, rfl⟩ := hpre a (by simp)
    have := ih r post (fun b hb => hpre b (by simp [hb]))
    simp [collect_local_srcs, this, Except.map]

/-- C3: uploading to a remote destination that names a specific file: any
remote source fails immediately (state untouched) with
`CannotCopyRemoteToRemote`; with all-local sources, more or fewer than one
source is `MultipleSourcesOneDestination`; with exactly one source the
engine fetches the server files matching the destination pattern and
uploads under the pattern's own text on zero matches, under the one match's
existing name on one match, and fails with `DestinationPatternIsMultiple`
(performing no upload) on several matches. The overwrite policy is never
consulted. -/
theorem cp_up_file_dst (s : St) (dst : RemotePattern) (hd : dst.is_whole_hw = false) :
    (∀ (pre : List CpArg) (r : RemotePattern) (post : List CpArg),
      (∀ a ∈ pre, ∃ f, a = CpArg.Local f) →
      cp_up (pre ++ CpArg.Remote r :: post) dst s =
        (Outcome.err (GscError.cannotCopyRemoteToRemote r dst), s)) ∧
    (∀ fnames : List String, fnames.length ≠ 1 →
      cp_up (fnames.map CpArg.Local) dst s =
        (Outcome.err GscError.multipleSourcesOneDestination, s)) ∧
    (∀ src : String, matchingFiles s.server dst = [] →
      cp_up [CpArg.Local src] dst s =
        upload_file src { dst with name := dst.name } (s.addEvent (Event.fetchedList dst.hw))) ∧
    (∀ (src : String) (d : FileMeta), matchingFiles s.server dst = [d] →
      cp_up [CpArg.Local src] dst s =
        upload_file src { dst with name := d.name } (s.addEvent (Event.fetchedList dst.hw))) ∧
    (∀ (src : String) (d1 d2 : FileMeta) (ds : List FileMeta),
      matchingFiles s.server dst = d1 :: d2 :: ds →
      cp_up [CpArg.Local src] dst s =
        (Outcome.err
          (GscError.destinationPatternIsMultiple dst ((d1 :: d2 :: ds).map FileMeta.name)),
         s.addEvent (Event.fetchedList dst.hw))) := by
  refine ⟨?_, ?_, ?_, ?_, ?_⟩
  · intro pre r post hpre
    unfold cp_up
    rw [collect_local_srcs_first_remote dst pre r post hpre]
    rfl
  · intro fnames hlen
    unfold cp_up
    rw [collect_local_srcs_map]
    match fnames with
    | [] => simp [hd]
    | [f] => exact absurd rfl hlen
    | f1 :: f2 :: rest => simp [hd]
  · intro src hmatch
    unfold cp_up
    rw [show ([CpArg.Local src] : List CpArg) = [src].map CpArg.Local from rfl,
      collect_local_srcs_map]
    simp [hd, hmatch]
  · intro src d hmatch
    unfold cp_up
    rw [show ([CpArg.Local src] : List CpArg) = [src].map CpArg.Local from rfl,
      collect_local_srcs_map]
    simp [hd, hmatch]
  · intro src d1 d2 ds hmatch
    unfold cp_up
    rw [show ([CpArg.Local src] : List CpArg) = [src].map CpArg.Local from rfl,
      collect_local_srcs_map]
    simp [hd, hmatch]

/-- Witness for C3: uploading one local file to `hw4:*.txt`, which matches
exactly the server file `c.txt`, uploads under the existing name `c.txt`. -/
theorem cp_up_file_dst_witness :
    cp_up [CpArg.Local "draft.txt"] { hw := 4, name := "*.txt" }
        (mkSt [("draft.txt", FsNode.file)] [] OverwritePolicy.never) =
      upload_file "draft.txt" { hw := 4, name := "c.txt" }
        ((mkSt [("draft.txt", FsNode.file)] [] OverwritePolicy.never).addEvent
          (Event.fetchedList 4)) :=
  (cp_up_file_dst (mkSt [("draft.txt", FsNode.file)] [] OverwritePolicy.never)
    { hw := 4, name := "*.txt" } rfl).2.2.2.1 "draft.txt"
    { name := "c.txt", purpose := FilePurpose.source } (by decide)

end Gsc

namespace Gsc

/-! ### The download branch with a nonexistent destination (C1) -/

/-- C1 counterexample: the destination `d/` does not exist and its text ends
in the path separator, and the single source pattern is not whole-homework.
The claim requires the trailing separator alone to force directory
semantics (create the directory, then fan out); the engine instead takes
the single-file branch: it downloads the one matching file to the path
`d/` itself and never creates a directory. -/
theorem cp_dn_doesNotExist_sep_counterexample :
    endsWithSep "d/" = true ∧
    fsLookup (mkSt [] [] OverwritePolicy.ask).fs "d/" = none ∧
    RemotePattern.is_whole_hw { hw := 3, name := "a.txt" } = false ∧
    (cp_dn [CpArg.Remote { hw := 3, name := "a.txt" }] "d/"
        (mkSt [] [] OverwritePolicy.ask)).1 = Outcome.ok () ∧
    (cp_dn [CpArg.Remote { hw := 3, name := "a.txt" }] "d/"
        (mkSt [] [] OverwritePolicy.ask)).2.trace =
      [Event.probedDst "d/", Event.fetchedList 3, Event.downloaded 3 "a.txt" "d/"] ∧
    (cp_dn [CpArg.Remote { hw := 3, name := "a.txt" }] "d/"
        (mkSt [] [] OverwritePolicy.ask)).2.fs = fsInsert [] "d/" FsNode.file ∧
    ((cp_dn [CpArg.Remote { hw := 3, name := "a.txt" }] "d/"
        (mkSt [] [] OverwritePolicy.ask)).2.trace.all
      (fun e => match e with | Event.createdDir _ => false | _ => true)) = true := by
  exact ⟨by decide, by decide, by decide, by decide, by decide, by decide, by decide⟩

/-- C1 amended: with a nonexistent destination, exactly one source pattern
is required (`MultipleSourcesOneDestination` otherwise); the directory-vs-
file decision is made by the whole-homework signal alone — a whole-homework
source creates the directory and fans out as in the `Dir` case
(`download_hw`), while a non-whole-homework source downloads the single
matching file to the destination path with no overwrite prompt, regardless
of any trailing separator in the destination text (which the engine never
inspects). -/
theorem cp_dn_doesNotExist (s : St) (dst : String) (habs : fsLookup s.fs dst = none) :
    (∀ rps : List RemotePattern, rps.length ≠ 1 →
      cp_dn (rps.map CpArg.Remote) dst s =
        (Outcome.err GscError.multipleSourcesOneDestination, s.addEvent (Event.probedDst dst))) ∧
    (∀ rp : RemotePattern, rp.is_whole_hw = true →
      cp_dn [CpArg.Remote rp] dst s =
        (do
          soft_create_dir dst
          download_hw rp.hw dst) (s.addEvent (Event.probedDst dst))) ∧
    (∀ rp : RemotePattern, rp.is_whole_hw = false →
      cp_dn [CpArg.Remote rp] dst s =
        (do
          let m ← fetch_one_matching_filename rp
          download_file rp.hw m dst) (s.addEvent (Event.probedDst dst))) ∧
    (∀ rp : RemotePattern, rp.is_whole_hw = false → ∀ d : String,
      Event.prompted d ∉ (cp_dn [CpArg.Remote rp] dst s).2.trace.drop s.trace.length) ∧
    (∀ rp : RemotePattern, rp.is_whole_hw = false → ∀ m : FileMeta,
      matchingFiles s.server rp = [m] →
      cp_dn [CpArg.Remote rp] dst s =
        (Outcome.ok (),
         { s with
            fs := fsInsert s.fs dst FsNode.file
            trace := s.trace ++ [Event.probedDst dst, Event.fetchedList rp.hw,
                                 Event.downloaded rp.hw m.name dst] })) := by
  have hstep : ∀ rp : RemotePattern, rp.is_whole_hw = false →
      cp_dn [CpArg.Remote rp] dst s =
        (do
          let m ← fetch_one_matching_filename rp
          download_file rp.hw m dst) (s.addEvent (Event.probedDst dst)) := by
    intro rp hw
    unfold cp_dn
    rw [show ([CpArg.Remote rp] : List CpArg) = [rp].map CpArg.Remote from rfl,
      collect_remote_srcs_map]
    simp [habs, hw]
  refine ⟨?_, ?_, hstep, ?_, ?_⟩
  · intro rps hlen
    unfold cp_dn
    rw [collect_remote_srcs_map]
    match rps with
    | [] => simp [habs]
    | [rp] => exact absurd rfl hlen
    | rp1 :: rp2 :: rest => simp [habs]
  · intro rp hw
    unfold cp_dn
    rw [show ([CpArg.Remote rp] : List CpArg) = [rp].map CpArg.Remote from rfl,
      collect_remote_srcs_map]
    simp [habs, hw]
  · intro rp hw d
    rw [hstep rp hw]
    rcases hmatch : matchingFiles s.server rp with _ | ⟨m1, _ | ⟨m2, ms⟩⟩ <;>
      simp [fetch_one_matching_filename, St.addEvent, hmatch, download_file,
        List.drop_left, List.append_assoc]
  · intro rp hw m hmatch
    rw [hstep rp hw]
    simp [fetch_one_matching_filename, St.addEvent, hmatch, download_file]

/-- Witness for C1's amended claim: a whole-homework source into a
nonexistent `out` creates the directory and delegates to the fan-out. -/
theorem cp_dn_doesNotExist_witness :
    cp_dn [CpArg.Remote { hw := 4, name := "" }] "out" (mkSt [] [] OverwritePolicy.ask) =
      (do
        soft_create_dir "out"
        download_hw 4 "out")
        ((mkSt [] [] OverwritePolicy.ask).addEvent (Event.probedDst "out")) :=
  (cp_dn_doesNotExist (mkSt [] [] OverwritePolicy.ask) "out" (by decide)).2.1
    { hw := 4, name := "" } rfl

/-! ### Failure handling in the whole-homework upload (C5) -/

/-- C5 counterexample: two local sources are uploaded to the whole-homework
destination `hw3:`; the first source's upload fails (no file exists at
`missing.txt`). The claim requires the failure to be logged as a warning
and the batch to continue with `b.txt`; the engine instead aborts the whole
command with the error — no warning is recorded and no event at all is
traced (in particular `b.txt` is never uploaded). -/
theorem cp_up_whole_upload_failure_counterexample :
    (cp_up [CpArg.Local "missing.txt", CpArg.Local "b.txt"] { hw := 3, name := "" }
        (mkSt [("b.txt", FsNode.file)] [] OverwritePolicy.ask)).1 =
      Outcome.err (GscError.localIoError "missing.txt") ∧
    (cp_up [CpArg.Local "missing.txt", CpArg.Local "b.txt"] { hw := 3, name := "" }
        (mkSt [("b.txt", FsNode.file)] [] OverwritePolicy.ask)).2.hadWarning = false ∧
    (cp_up [CpArg.Local "missing.txt", CpArg.Local "b.txt"] { hw := 3, name := "" }
        (mkSt [("b.txt", FsNode.file)] [] OverwritePolicy.ask)).2.trace = [] := by
  exact ⟨by decide, by decide, by decide⟩

/-- C5 amended: in the whole-homework upload branch only a failure to derive
the source's base filename is non-fatal — it is logged as a warning (the
warning flag is set) and the loop continues with the remaining sources; a
failure of the upload itself aborts the whole command with that error,
leaving the remaining sources unprocessed and the warning flag untouched; a
successful upload records its event and continues. -/
theorem cp_up_whole_loop_failures (dst : RemotePattern) (src : String)
    (rest : List String) (s : St) :
    (base_filename src = none →
      cp_up_whole_loop dst (src :: rest) s =
        cp_up_whole_loop dst rest
          { s with
              hadWarning := true
              trace := s.trace ++ [Event.warned (GscError.badLocalPath src)] }) ∧
    (∀ fn, base_filename src = some fn → fsLookup s.fs src ≠ some FsNode.file →
      cp_up_whole_loop dst (src :: rest) s = (Outcome.err (GscError.localIoError src), s)) ∧
    (∀ fn, base_filename src = some fn → fsLookup s.fs src = some FsNode.file →
      cp_up_whole_loop dst (src :: rest) s =
        cp_up_whole_loop dst rest
          { s with trace := s.trace ++ [Event.uploaded src dst.hw fn] }) ∧
    (dst.is_whole_hw = true → ∀ fnames : List String,
      cp_up (fnames.map CpArg.Local) dst s = cp_up_whole_loop dst fnames s) := by
  refine ⟨?_, ?_, ?_, ?_⟩
  · intro hbase
    simp only [cp_up_whole_loop]
    simp [get_base_filename, hbase, warn]
  · intro fn hbase hfs
    simp only [cp_up_whole_loop]
    rcases hlook : fsLookup s.fs src with _ | node
    · simp [get_base_filename, hbase, upload_file, hlook]
    · cases node with
      | dir => simp [get_base_filename, hbase, upload_file, hlook]
      | file => exact absurd hlook hfs
  · intro fn hbase hfs
    simp only [cp_up_whole_loop]
    simp [get_base_filename, hbase, upload_file, hfs]
  · intro hwhole fnames
    unfold cp_up
    rw [collect_local_srcs_map]
    simp [hwhole]

/-- Witness for C5's amended claim: a source with no base filename (`..`)
is warned about and the loop moves on. -/
theorem cp_up_whole_loop_failures_witness :
    cp_up_whole_loop { hw := 3, name := "" } [".."] (mkSt [] [] OverwritePolicy.ask) =
      cp_up_whole_loop { hw := 3, name := "" } []
        { mkSt [] [] OverwritePolicy.ask with
            hadWarning := true
            trace := (mkSt [] [] OverwritePolicy.ask).trace ++
              [Event.warned (GscError.badLocalPath "..")] } :=
  (cp_up_whole_loop_failures { hw := 3, name := "" } ".." []
    (mkSt [] [] OverwritePolicy.ask)).1 (by decide)

end Gsc

namespace Gsc

/-! ### Primitive-operation lemmas shared by the fan-out and batch claims -/

theorem confirm_overwrite_always (q : String) (s : St) (h : s.policy = OverwritePolicy.always) :
    confirm_overwrite q s = (Outcome.ok true, s) := by
  unfold confirm_overwrite
  rw [h]

theorem confirm_overwrite_never_eq (q : String) (s : St) (h : s.policy = OverwritePolicy.never) :
    confirm_overwrite q s = (Outcome.err (GscError.destinationFileExists q), s) := by
  unfold confirm_overwrite
  rw [h]

theorem confirm_overwrite_trace (q : String) (s : St) :
    ∃ k, (confirm_overwrite q s).2.trace = s.trace ++ List.replicate k (Event.prompted q) := by
  cases hp : s.policy
  · exact ⟨0, by rw [confirm_overwrite_always q s hp]; simp⟩
  · exact ⟨0, by rw [confirm_overwrite_never_eq q s hp]; simp⟩
  · refine ⟨(ask_loop s.input).2.2.2, ?_⟩
    unfold confirm_overwrite
    rw [hp]

theorem soft_create_dir_fst (q : String) (s : St) :
    (soft_create_dir q s).1 = Outcome.ok () := by
  unfold soft_create_dir
  split <;> rfl

theorem soft_create_dir_policy (q : String) (s : St) :
    (soft_create_dir q s).2.policy = s.policy := by
  unfold soft_create_dir
  split <;> rfl

theorem soft_create_dir_trace (q : String) (s : St) :
    s.trace <+: (soft_create_dir q s).2.trace := by
  unfold soft_create_dir
  split
  · exact List.prefix_rfl
  · exact ⟨[Event.createdDir q], rfl⟩

theorem mem_trace_soft_create_dir {e : Event} {q : String} {s : St}
    (hm : e ∈ (soft_create_dir q s).2.trace) :
    e ∈ s.trace ∨ e = Event.createdDir q := by
  revert hm
  unfold soft_create_dir
  split
  · exact fun hm => Or.inl hm
  · intro hm
    rcases List.mem_append.mp hm with h1 | h1
    · exact Or.inl h1
    · simp at h1
      exact Or.inr h1

theorem mem_trace_confirm_overwrite {e : Event} {q : String} {s : St}
    (hm : e ∈ (confirm_overwrite q s).2.trace) :
    e ∈ s.trace ∨ e = Event.prompted q := by
  obtain ⟨k, hk⟩ := confirm_overwrite_trace q s
  rw [hk] at hm
  rcases List.mem_append.mp hm with h1 | h1
  · exact Or.inl h1
  · exact Or.inr (List.eq_of_mem_replicate h1)

theorem mem_trace_is_okay {e : Event} {q : String} {s : St}
    (hm : e ∈ (is_okay_to_write_local q s).2.trace) :
    e ∈ s.trace ∨ e = Event.prompted q := by
  revert hm
  unfold is_okay_to_write_local
  split
  · exact mem_trace_confirm_overwrite
  · exact fun hm => Or.inl hm

theorem is_okay_always (q : String) (s : St) (h : s.policy = OverwritePolicy.always) :
    is_okay_to_write_local q s = (Outcome.ok true, s) := by
  unfold is_okay_to_write_local
  split
  · exact confirm_overwrite_always q s h
  · rfl

theorem is_okay_never_state (q : String) (s : St) (h : s.policy = OverwritePolicy.never) :
    (is_okay_to_write_local q s).2 = s ∧
    ((is_okay_to_write_local q s).1 = Outcome.ok true ∨
      (is_okay_to_write_local q s).1 = Outcome.err (GscError.destinationFileExists q)) := by
  unfold is_okay_to_write_local
  split
  · rw [confirm_overwrite_never_eq q s h]
    exact ⟨rfl, Or.inr rfl⟩
  · exact ⟨rfl, Or.inl rfl⟩

theorem is_okay_policy (q : String) (s : St) :
    (is_okay_to_write_local q s).2.policy = s.policy ∨
      (is_okay_to_write_local q s).2.policy = OverwritePolicy.always := by
  unfold is_okay_to_write_local
  split
  · cases hp : s.policy
    · rw [confirm_overwrite_always q s hp]
      exact Or.inl hp
    · rw [confirm_overwrite_never_eq q s hp]
      exact Or.inl hp
    · unfold confirm_overwrite
      rw [hp]
      by_cases hf : (ask_loop s.input).2.1 = true
      · simp [hf]
      · simp [Bool.eq_false_iff.mpr hf, hp]
  · exact Or.inl rfl

@[simp] theorem download_file_apply (hw : Nat) (m : FileMeta) (q : String) (s : St) :
    download_file hw m q s =
      (Outcome.ok (),
       { s with
          fs := fsInsert s.fs q FsNode.file
          trace := s.trace ++ [Event.downloaded hw m.name q] }) := rfl

theorem try_warn_of_err (m : M Unit) (s s' : St) (e : GscError)
    (h : m s = (Outcome.err e, s')) :
    try_warn m s =
      (Outcome.ok (),
       { s' with hadWarning := true, trace := s'.trace ++ [Event.warned e] }) := by
  unfold try_warn
  rw [h]

theorem try_warn_of_ok (m : M Unit) (s s' : St) (h : m s = (Outcome.ok (), s')) :
    try_warn m s = (Outcome.ok (), s') := by
  unfold try_warn
  rw [h]

end Gsc

namespace Gsc

/-! ### The whole-homework fan-out (C4) -/

theorem download_hw_loop_downloaded (hw : Nat) (dst : String) :
    ∀ (ms : List FileMeta) (s₀ : St) (h : Nat) (n p : String),
      Event.downloaded h n p ∈ (download_hw_loop hw dst ms s₀).2.trace →
      Event.downloaded h n p ∈ s₀.trace ∨
        (h = hw ∧ ∃ m, m ∈ ms ∧ m.purpose ≠ FilePurpose.log ∧ n = m.name ∧
          p = fanOutTarget dst m) := by
  intro ms
  induction ms with
  | nil =>
    intro s₀ h n p hmem
    left
    simpa [download_hw_loop] using hmem
  | cons m rest ih =>
    intro s₀ h n p hmem
    by_cases hlog : m.purpose = FilePurpose.log
    · simp only [download_hw_loop, hlog, if_pos] at hmem
      rcases ih s₀ h n p hmem with hin | ⟨hh, m', hm', hrest⟩
      · exact Or.inl hin
      · exact Or.inr ⟨hh, m', List.mem_cons_of_mem _ hm', hrest⟩
    · simp only [download_hw_loop, if_neg hlog, bind_apply] at hmem
      rcases h1 : soft_create_dir (pathPush dst m.purpose.to_dir) s₀ with ⟨o1, s1⟩
      have ho1 : o1 = Outcome.ok () := by
        have := soft_create_dir_fst (pathPush dst m.purpose.to_dir) s₀
        rw [h1] at this
        exact this
      subst ho1
      rw [h1] at hmem
      simp only [bind_apply] at hmem
      have hchain1 : Event.downloaded h n p ∈ s1.trace → Event.downloaded h n p ∈ s₀.trace := by
        intro hin
        have : Event.downloaded h n p ∈ (soft_create_dir (pathPush dst m.purpose.to_dir) s₀).2.trace := by
          rw [h1]; exact hin
        rcases mem_trace_soft_create_dir this with hh | hh
        · exact hh
        · cases hh
      rcases h2 : is_okay_to_write_local (pathPush (pathPush dst m.purpose.to_dir) m.name) s1
        with ⟨o2, s2⟩
      have hchain2 : Event.downloaded h n p ∈ s2.trace → Event.downloaded h n p ∈ s1.trace := by
        intro hin
        have : Event.downloaded h n p ∈
            (is_okay_to_write_local (pathPush (pathPush dst m.purpose.to_dir) m.name) s1).2.trace := by
          rw [h2]; exact hin
        rcases mem_trace_is_okay this with hh | hh
        · exact hh
        · cases hh
      rw [h2] at hmem
      cases o2 with
      | ok b =>
        cases b with
        | false =>
          simp only [Bool.false_eq_true, if_false, pure_apply] at hmem
          rcases ih s2 h n p hmem with hin | ⟨hh, m', hm', hrest⟩
          · exact Or.inl (hchain1 (hchain2 hin))
          · exact Or.inr ⟨hh, m', List.mem_cons_of_mem _ hm', hrest⟩
        | true =>
          simp only [if_true, download_file_apply] at hmem
          rcases ih _ h n p hmem with hin | ⟨hh, m', hm', hrest⟩
          · simp only [List.mem_append, List.mem_singleton] at hin
            rcases hin with hin | hin
            · exact Or.inl (hchain1 (hchain2 hin))
            · rcases Event.downloaded.injEq .. ▸ hin with ⟨hh, hn, hp⟩
              exact Or.inr ⟨hh, m, List.mem_cons_self .., hlog, hn, hp⟩
          · exact Or.inr ⟨hh, m', List.mem_cons_of_mem _ hm', hrest⟩
      | err e =>
        exact Or.inl (hchain1 (hchain2 hmem))
      | exited c =>
        exact Or.inl (hchain1 (hchain2 hmem))

theorem download_hw_loop_always (hw : Nat) (dst : String) :
    ∀ (ms : List FileMeta) (s₀ : St), s₀.policy = OverwritePolicy.always →
      (download_hw_loop hw dst ms s₀).1 = Outcome.ok () ∧
      (download_hw_loop hw dst ms s₀).2.policy = OverwritePolicy.always ∧
      s₀.trace <+: (download_hw_loop hw dst ms s₀).2.trace ∧
      ∀ m ∈ ms, m.purpose ≠ FilePurpose.log →
        Event.downloaded hw m.name (fanOutTarget dst m) ∈ (download_hw_loop hw dst ms s₀).2.trace := by
  intro ms
  induction ms with
  | nil =>
    intro s₀ hpol
    exact ⟨rfl, hpol, List.prefix_rfl, by simp⟩
  | cons m rest ih =>
    intro s₀ hpol
    by_cases hlog : m.purpose = FilePurpose.log
    · have hred : download_hw_loop hw dst (m :: rest) s₀ = download_hw_loop hw dst rest s₀ := by
        simp only [download_hw_loop, hlog, if_pos]
      obtain ⟨hok, hpol', hpre, hmem⟩ := ih s₀ hpol
      rw [hred]
      refine ⟨hok, hpol', hpre, ?_⟩
      intro m' hm' hlog'
      rcases List.mem_cons.mp hm' with rfl | hm'
      · exact absurd hlog hlog'
      · exact hmem m' hm' hlog'
    · rcases h1 : soft_create_dir (pathPush dst m.purpose.to_dir) s₀ with ⟨o1, s1⟩
      have ho1 : o1 = Outcome.ok () := by
        have := soft_create_dir_fst (pathPush dst m.purpose.to_dir) s₀
        rw [h1] at this
        exact this
      subst ho1
      have hpol1 : s1.policy = OverwritePolicy.always := by
        have := soft_create_dir_policy (pathPush dst m.purpose.to_dir) s₀
        rw [h1] at this
        rw [this, hpol]
      have hpre1 : s₀.trace <+: s1.trace := by
        have := soft_create_dir_trace (pathPush dst m.purpose.to_dir) s₀
        rw [h1] at this
        exact this
      have h2 := is_okay_always (pathPush (pathPush dst m.purpose.to_dir) m.name) s1 hpol1
      have hred : download_hw_loop hw dst (m :: rest) s₀ =
          download_hw_loop hw dst rest
            { s1 with
                fs := fsInsert s1.fs (pathPush (pathPush dst m.purpose.to_dir) m.name) FsNode.file
                trace := s1.trace ++ [Event.downloaded hw m.name
                  (pathPush (pathPush dst m.purpose.to_dir) m.name)] } := by
        simp only [download_hw_loop, if_neg hlog, bind_apply, h1, h2, if_true,
          download_file_apply]
      obtain ⟨hok, hpol', hpre, hmem⟩ := ih
        { s1 with
            fs := fsInsert s1.fs (pathPush (pathPush dst m.purpose.to_dir) m.name) FsNode.file
            trace := s1.trace ++ [Event.downloaded hw m.name
              (pathPush (pathPush dst m.purpose.to_dir) m.name)] } hpol1
      rw [hred]
      refine ⟨hok, hpol', ?_, ?_⟩
      · exact hpre1.trans ((List.prefix_append _ _).trans hpre)
      · intro m' hm' hlog'
        rcases List.mem_cons.mp hm' with rfl | hm'
        · have hin : Event.downloaded hw m'.name (fanOutTarget dst m') ∈
              s1.trace ++ [Event.downloaded hw m'.name
                (pathPush (pathPush dst m'.purpose.to_dir) m'.name)] := by
            simp [fanOutTarget]
          exact hpre.subset hin
        · exact hmem m' hm' hlog'

end Gsc

namespace Gsc

/-- C4: in the whole-homework download fan-out: every download performed is
of a fetched file whose purpose is not `Log`, written to
`dst/<purpose-named subdirectory>/<file name>`; under the `Always` policy
the fan-out succeeds and writes every fetched non-`Log` file to exactly
that path (so `Log` files are the ones skipped); a `Log`-purpose file is
skipped outright by the loop; each individual write consults the overwrite
policy if and only if a file already exists at that exact target path; and
the purpose subdirectory is created on demand — creation never fails, and
an already-existing entry is not an error (it is left untouched). -/
theorem download_hw_fanout (hw : Nat) (dst : String) (s : St) :
    (∀ (h : Nat) (n p : String),
      Event.downloaded h n p ∈ (download_hw hw dst s).2.trace →
      Event.downloaded h n p ∈ s.trace ∨
        (h = hw ∧ ∃ m, m ∈ matchingFiles s.server { hw := hw, name := "" } ∧
          m.purpose ≠ FilePurpose.log ∧ n = m.name ∧ p = fanOutTarget dst m)) ∧
    (s.policy = OverwritePolicy.always →
      (download_hw hw dst s).1 = Outcome.ok () ∧
      ∀ m ∈ matchingFiles s.server { hw := hw, name := "" }, m.purpose ≠ FilePurpose.log →
        Event.downloaded hw m.name (fanOutTarget dst m) ∈ (download_hw hw dst s).2.trace) ∧
    (∀ (m : FileMeta) (rest : List FileMeta) (s' : St), m.purpose = FilePurpose.log →
      download_hw_loop hw dst (m :: rest) s' = download_hw_loop hw dst rest s') ∧
    (∀ (q : String) (s' : St),
      is_okay_to_write_local q s' =
        if (fsLookup s'.fs q).isSome then confirm_overwrite q s' else (Outcome.ok true, s')) ∧
    (∀ (q : String) (s' : St),
      (soft_create_dir q s').1 = Outcome.ok () ∧
      ((fsLookup s'.fs q).isSome → soft_create_dir q s' = (Outcome.ok (), s')) ∧
      ((fsLookup s'.fs q).isSome = false →
        soft_create_dir q s' =
          (Outcome.ok (),
           { s' with
              fs := fsInsert s'.fs q FsNode.dir
              trace := s'.trace ++ [Event.createdDir q] }))) := by
  have hdh : download_hw hw dst s =
      download_hw_loop hw dst (matchingFiles s.server { hw := hw, name := "" })
        (s.addEvent (Event.fetchedList hw)) := rfl
  refine ⟨?_, ?_, ?_, ?_, ?_⟩
  · intro h n p hmem
    rw [hdh] at hmem
    rcases download_hw_loop_downloaded hw dst _ _ h n p hmem with hin | hr
    · rcases List.mem_append.mp hin with hin | hin
      · exact Or.inl hin
      · simp at hin
    · exact Or.inr hr
  · intro hpol
    obtain ⟨hok, _, _, hmem⟩ := download_hw_loop_always hw dst
      (matchingFiles s.server { hw := hw, name := "" }) (s.addEvent (Event.fetchedList hw)) hpol
    refine ⟨by rw [hdh]; exact hok, ?_⟩
    intro m hm hlog
    rw [hdh]
    exact hmem m hm hlog
  · intro m rest s' hlog
    simp only [download_hw_loop, hlog, if_pos]
  · intro q s'
    rfl
  · intro q s'
    refine ⟨soft_create_dir_fst q s', ?_, ?_⟩
    · intro hex
      unfold soft_create_dir
      simp [hex]
    · intro hex
      unfold soft_create_dir
      simp [hex]

/-- Witness for C4: fanning out homework 3 (a source file, a test file and
a log) under the `Always` policy succeeds and writes the source file to
`out/src/a.txt`. -/
theorem download_hw_fanout_witness :
    (download_hw 3 "out" (mkSt [] [] OverwritePolicy.always)).1 = Outcome.ok () ∧
    Event.downloaded 3 "a.txt"
        (fanOutTarget "out" { name := "a.txt", purpose := FilePurpose.source }) ∈
      (download_hw 3 "out" (mkSt [] [] OverwritePolicy.always)).2.trace := by
  have h := (download_hw_fanout 3 "out" (mkSt [] [] OverwritePolicy.always)).2.1 rfl
  exact ⟨h.1, h.2 { name := "a.txt", purpose := FilePurpose.source } (by decide) (by decide)⟩

end Gsc

namespace Gsc

/-! ### The Never policy in a directory-destination batch (C6) -/

theorem is_okay_never_cases (q : String) (s : St) (h : s.policy = OverwritePolicy.never) :
    is_okay_to_write_local q s = (Outcome.ok true, s) ∨
    is_okay_to_write_local q s = (Outcome.err (GscError.destinationFileExists q), s) := by
  obtain ⟨hst, hout⟩ := is_okay_never_state q s h
  rcases hout with ho | ho
  · exact Or.inl (Prod.ext_iff.mpr ⟨ho, hst⟩)
  · exact Or.inr (Prod.ext_iff.mpr ⟨ho, hst⟩)

theorem cp_dn_dir_files_loop_never (hw : Nat) (dst : String) :
    ∀ (ms : List FileMeta) (s₀ : St), s₀.policy = OverwritePolicy.never →
      ((cp_dn_dir_files_loop hw dst ms s₀).1 = Outcome.ok () ∨
        ∃ e, (cp_dn_dir_files_loop hw dst ms s₀).1 = Outcome.err e) ∧
      (cp_dn_dir_files_loop hw dst ms s₀).2.policy = OverwritePolicy.never ∧
      (∀ d, Event.prompted d ∈ (cp_dn_dir_files_loop hw dst ms s₀).2.trace →
        Event.prompted d ∈ s₀.trace) := by
  intro ms
  induction ms with
  | nil =>
    intro s₀ hpol
    exact ⟨Or.inl rfl, hpol, fun d hd => hd⟩
  | cons m rest ih =>
    intro s₀ hpol
    rcases is_okay_never_cases (pathPush dst m.name) s₀ hpol with hio | hio
    · have hred : cp_dn_dir_files_loop hw dst (m :: rest) s₀ =
          cp_dn_dir_files_loop hw dst rest
            { s₀ with
                fs := fsInsert s₀.fs (pathPush dst m.name) FsNode.file
                trace := s₀.trace ++ [Event.downloaded hw m.name (pathPush dst m.name)] } := by
        simp only [cp_dn_dir_files_loop, bind_apply, hio, if_true, download_file_apply]
      obtain ⟨hok, hpol', hprompt⟩ := ih
        { s₀ with
            fs := fsInsert s₀.fs (pathPush dst m.name) FsNode.file
            trace := s₀.trace ++ [Event.downloaded hw m.name (pathPush dst m.name)] } hpol
      rw [hred]
      refine ⟨hok, hpol', ?_⟩
      intro d hd
      rcases List.mem_append.mp (hprompt d hd) with hin | hin
      · exact hin
      · simp at hin
    · have hred : cp_dn_dir_files_loop hw dst (m :: rest) s₀ =
          (Outcome.err (GscError.destinationFileExists (pathPush dst m.name)), s₀) := by
        simp only [cp_dn_dir_files_loop, bind_apply, hio]
      rw [hred]
      exact ⟨Or.inr ⟨_, rfl⟩, hpol, fun d hd => hd⟩

theorem download_hw_loop_never (hw : Nat) (dst : String) :
    ∀ (ms : List FileMeta) (s₀ : St), s₀.policy = OverwritePolicy.never →
      ((download_hw_loop hw dst ms s₀).1 = Outcome.ok () ∨
        ∃ e, (download_hw_loop hw dst ms s₀).1 = Outcome.err e) ∧
      (download_hw_loop hw dst ms s₀).2.policy = OverwritePolicy.never ∧
      (∀ d, Event.prompted d ∈ (download_hw_loop hw dst ms s₀).2.trace →
        Event.prompted d ∈ s₀.trace) := by
  intro ms
  induction ms with
  | nil =>
    intro s₀ hpol
    exact ⟨Or.inl rfl, hpol, fun d hd => hd⟩
  | cons m rest ih =>
    intro s₀ hpol
    by_cases hlog : m.purpose = FilePurpose.log
    · have hred : download_hw_loop hw dst (m :: rest) s₀ = download_hw_loop hw dst rest s₀ := by
        simp only [download_hw_loop, hlog, if_pos]
      rw [hred]
      exact ih s₀ hpol
    · rcases h1 : soft_create_dir (pathPush dst m.purpose.to_dir) s₀ with ⟨o1, s1⟩
      have ho1 : o1 = Outcome.ok () := by
        have := soft_create_dir_fst (pathPush dst m.purpose.to_dir) s₀
        rw [h1] at this
        exact this
      subst ho1
      have hpol1 : s1.policy = OverwritePolicy.never := by
        have := soft_create_dir_policy (pathPush dst m.purpose.to_dir) s₀
        rw [h1] at this
        rw [this, hpol]
      have hprompt1 : ∀ d, Event.prompted d ∈ s1.trace → Event.prompted d ∈ s₀.trace := by
        intro d hd
        have hmm : Event.prompted d ∈ (soft_create_dir (pathPush dst m.purpose.to_dir) s₀).2.trace := by
          rw [h1]; exact hd
        rcases mem_trace_soft_create_dir hmm with hin | hin
        · exact hin
        · cases hin
      rcases is_okay_never_cases (pathPush (pathPush dst m.purpose.to_dir) m.name) s1 hpol1
        with hio | hio
      · have hred : download_hw_loop hw dst (m :: rest) s₀ =
            download_hw_loop hw dst rest
              { s1 with
                  fs := fsInsert s1.fs (pathPush (pathPush dst m.purpose.to_dir) m.name) FsNode.file
                  trace := s1.trace ++ [Event.downloaded hw m.name
                    (pathPush (pathPush dst m.purpose.to_dir) m.name)] } := by
          simp only [download_hw_loop, if_neg hlog, bind_apply, h1, hio, if_true,
            download_file_apply]
        obtain ⟨hok, hpol', hprompt⟩ := ih
          { s1 with
              fs := fsInsert s1.fs (pathPush (pathPush dst m.purpose.to_dir) m.name) FsNode.file
              trace := s1.trace ++ [Event.downloaded hw m.name
                (pathPush (pathPush dst m.purpose.to_dir) m.name)] } hpol1
        rw [hred]
        refine ⟨hok, hpol', ?_⟩
        intro d hd
        rcases List.mem_append.mp (hprompt d hd) with hin | hin
        · exact hprompt1 d hin
        · simp at hin
      · have hred : download_hw_loop hw dst (m :: rest) s₀ =
            (Outcome.err (GscError.destinationFileExists
              (pathPush (pathPush dst m.purpose.to_dir) m.name)), s1) := by
          simp only [download_hw_loop, if_neg hlog, bind_apply, h1, hio]
        rw [hred]
        exact ⟨Or.inr ⟨_, rfl⟩, hpol1, hprompt1⟩

theorem cp_dn_dir_one_src_never (dst : String) (rp : RemotePattern) (s₀ : St)
    (hpol : s₀.policy = OverwritePolicy.never) :
    ((cp_dn_dir_one_src dst rp s₀).1 = Outcome.ok () ∨
      ∃ e, (cp_dn_dir_one_src dst rp s₀).1 = Outcome.err e) ∧
    (cp_dn_dir_one_src dst rp s₀).2.policy = OverwritePolicy.never ∧
    (∀ d, Event.prompted d ∈ (cp_dn_dir_one_src dst rp s₀).2.trace →
      Event.prompted d ∈ s₀.trace) := by
  have haddp : ∀ (d : String) (e : Event), Event.prompted d ∈ (s₀.addEvent e).trace →
      e ≠ Event.prompted d → Event.prompted d ∈ s₀.trace := by
    intro d e hd hne
    rcases List.mem_append.mp hd with hin | hin
    · exact hin
    · simp at hin
      exact absurd hin.symm hne
  by_cases hw : rp.is_whole_hw
  · have hred : cp_dn_dir_one_src dst rp s₀ =
        download_hw_loop rp.hw dst (matchingFiles s₀.server { hw := rp.hw, name := "" })
          (s₀.addEvent (Event.fetchedList rp.hw)) := by
      unfold cp_dn_dir_one_src
      simp [hw, download_hw]
    obtain ⟨hok, hpol', hprompt⟩ := download_hw_loop_never rp.hw dst
      (matchingFiles s₀.server { hw := rp.hw, name := "" })
      (s₀.addEvent (Event.fetchedList rp.hw)) hpol
    rw [hred]
    refine ⟨hok, hpol', ?_⟩
    intro d hd
    exact haddp d _ (hprompt d hd) (by simp)
  · by_cases hempty : matchingFiles s₀.server rp = []
    · have hred : cp_dn_dir_one_src dst rp s₀ =
          (Outcome.err (GscError.noSuchRemoteFile rp), s₀.addEvent (Event.fetchedList rp.hw)) := by
        unfold cp_dn_dir_one_src
        simp [hw, fetch_nonempty_matching_file_list, hempty]
      rw [hred]
      refine ⟨Or.inr ⟨_, rfl⟩, hpol, ?_⟩
      intro d hd
      exact haddp d _ hd (by simp)
    · have hred : cp_dn_dir_one_src dst rp s₀ =
          cp_dn_dir_files_loop rp.hw dst (matchingFiles s₀.server rp)
            (s₀.addEvent (Event.fetchedList rp.hw)) := by
        unfold cp_dn_dir_one_src
        simp [hw, fetch_nonempty_matching_file_list, hempty]
      obtain ⟨hok, hpol', hprompt⟩ := cp_dn_dir_files_loop_never rp.hw dst
        (matchingFiles s₀.server rp) (s₀.addEvent (Event.fetchedList rp.hw)) hpol
      rw [hred]
      refine ⟨hok, hpol', ?_⟩
      intro d hd
      exact haddp d _ (hprompt d hd) (by simp)

theorem cp_dn_dir_loop_never_ok (dst : String) :
    ∀ (rps : List RemotePattern) (s₀ : St), s₀.policy = OverwritePolicy.never →
      (cp_dn_dir_loop dst rps s₀).1 = Outcome.ok () ∧
      (cp_dn_dir_loop dst rps s₀).2.policy = OverwritePolicy.never ∧
      (∀ d, Event.prompted d ∈ (cp_dn_dir_loop dst rps s₀).2.trace →
        Event.prompted d ∈ s₀.trace) := by
  intro rps
  induction rps with
  | nil =>
    intro s₀ hpol
    exact ⟨rfl, hpol, fun d hd => hd⟩
  | cons rp rest ih =>
    intro s₀ hpol
    obtain ⟨hout, hpol1, hprompt1⟩ := cp_dn_dir_one_src_never dst rp s₀ hpol
    rcases hr : cp_dn_dir_one_src dst rp s₀ with ⟨o, s1⟩
    rw [hr] at hout hpol1 hprompt1
    rcases hout with ho | ⟨e, ho⟩
    · have hone : cp_dn_dir_one_src dst rp s₀ = (Outcome.ok (), s1) := by
        rw [hr]
        exact Prod.ext_iff.mpr ⟨ho, rfl⟩
      have hred : cp_dn_dir_loop dst (rp :: rest) s₀ = cp_dn_dir_loop dst rest s1 := by
        simp only [cp_dn_dir_loop, bind_apply, try_warn_of_ok _ _ _ hone]
      obtain ⟨hok, hpol', hprompt⟩ := ih s1 hpol1
      rw [hred]
      exact ⟨hok, hpol', fun d hd => hprompt1 d (hprompt d hd)⟩
    · have hone : cp_dn_dir_one_src dst rp s₀ = (Outcome.err e, s1) := by
        rw [hr]
        exact Prod.ext_iff.mpr ⟨ho, rfl⟩
      have hred : cp_dn_dir_loop dst (rp :: rest) s₀ =
          cp_dn_dir_loop dst rest
            { s1 with hadWarning := true, trace := s1.trace ++ [Event.warned e] } := by
        simp only [cp_dn_dir_loop, bind_apply, try_warn_of_err _ _ _ _ hone]
      obtain ⟨hok, hpol', hprompt⟩ := ih
        { s1 with hadWarning := true, trace := s1.trace ++ [Event.warned e] } hpol1
      rw [hred]
      refine ⟨hok, hpol', ?_⟩
      intro d hd
      rcases List.mem_append.mp (hprompt d hd) with hin | hin
      · exact hprompt1 d hin
      · simp at hin

end Gsc

namespace Gsc

/-- C6 counterexample: policy `Never`, directory destination `out`, first
pattern `hw3:*.txt` matching `a.txt` and `b.txt` whose targets both already
exist, second pattern `hw4:c.txt` whose target does not. The claim requires
the batch to continue with the remaining files of the same source pattern;
the engine instead aborts the first pattern at `out/a.txt` (the error is
caught as a warning at the pattern boundary): no event for `b.txt` appears
at all, while the second pattern still runs, and the command returns
success with the warning flag set. -/
theorem overwrite_never_same_pattern_counterexample :
    (cp_dn [CpArg.Remote { hw := 3, name := "*.txt" }, CpArg.Remote { hw := 4, name := "c.txt" }]
        "out"
        (mkSt [("out", FsNode.dir), ("out/a.txt", FsNode.file), ("out/b.txt", FsNode.file)]
          [] OverwritePolicy.never)).2.trace =
      [Event.probedDst "out", Event.fetchedList 3,
       Event.warned (GscError.destinationFileExists "out/a.txt"),
       Event.fetchedList 4, Event.downloaded 4 "c.txt" "out/c.txt"] ∧
    Event.downloaded 3 "b.txt" "out/b.txt" ∉
      (cp_dn [CpArg.Remote { hw := 3, name := "*.txt" }, CpArg.Remote { hw := 4, name := "c.txt" }]
        "out"
        (mkSt [("out", FsNode.dir), ("out/a.txt", FsNode.file), ("out/b.txt", FsNode.file)]
          [] OverwritePolicy.never)).2.trace ∧
    (cp_dn [CpArg.Remote { hw := 3, name := "*.txt" }, CpArg.Remote { hw := 4, name := "c.txt" }]
        "out"
        (mkSt [("out", FsNode.dir), ("out/a.txt", FsNode.file), ("out/b.txt", FsNode.file)]
          [] OverwritePolicy.never)).1 = Outcome.ok () ∧
    (cp_dn [CpArg.Remote { hw := 3, name := "*.txt" }, CpArg.Remote { hw := 4, name := "c.txt" }]
        "out"
        (mkSt [("out", FsNode.dir), ("out/a.txt", FsNode.file), ("out/b.txt", FsNode.file)]
          [] OverwritePolicy.never)).2.hadWarning = true := by
  exact ⟨by decide, by decide, by decide, by decide⟩

/-- C6 amended: under `Never` an existing destination file surfaces the
recoverable per-file error `DestinationFileExists` (no prompt, no process
exit, state unchanged); that error is caught at the per-source-pattern
boundary by `try_warn`, which records a warning and lets the batch continue
with the next pattern — so the remaining files of the *same* pattern are
abandoned, later patterns still run, and the whole `Dir`-case batch always
completes with success (never an abort, and no prompt is ever shown, so no
cancel can occur). Under `Ask`, a `n` response skips just the one file and
the pattern continues. -/
theorem overwrite_never_recoverable (dst : String) :
    (∀ (q : String) (s : St), s.policy = OverwritePolicy.never →
      confirm_overwrite q s = (Outcome.err (GscError.destinationFileExists q), s)) ∧
    (∀ (m : M Unit) (s s' : St) (e : GscError), m s = (Outcome.err e, s') →
      try_warn m s =
        (Outcome.ok (),
         { s' with hadWarning := true, trace := s'.trace ++ [Event.warned e] })) ∧
    (∀ (rp : RemotePattern) (rest : List RemotePattern) (s s' : St),
      try_warn (cp_dn_dir_one_src dst rp) s = (Outcome.ok (), s') →
      cp_dn_dir_loop dst (rp :: rest) s = cp_dn_dir_loop dst rest s') ∧
    (∀ (rps : List RemotePattern) (s : St), s.policy = OverwritePolicy.never →
      (cp_dn_dir_loop dst rps s).1 = Outcome.ok () ∧
      (∀ d, Event.prompted d ∈ (cp_dn_dir_loop dst rps s).2.trace →
        Event.prompted d ∈ s.trace)) ∧
    (∀ (q : String) (s : St) (tail : List String), s.policy = OverwritePolicy.ask →
      s.input = "n" :: tail →
      confirm_overwrite q s =
        (Outcome.ok false,
         { s with input := tail, trace := s.trace ++ [Event.prompted q] })) := by
  refine ⟨?_, ?_, ?_, ?_, ?_⟩
  · exact fun q s h => confirm_overwrite_never_eq q s h
  · exact fun m s s' e h => try_warn_of_err m s s' e h
  · intro rp rest s s' h
    simp only [cp_dn_dir_loop, bind_apply, h]
  · intro rps s h
    obtain ⟨hok, _, hprompt⟩ := cp_dn_dir_loop_never_ok dst rps s h
    exact ⟨hok, hprompt⟩
  · intro q s tail hp hi
    unfold confirm_overwrite
    rw [hp]
    have hask : ask_loop s.input = (Outcome.ok false, false, tail, 1) := by
      rw [hi]
      rfl
    rw [hask]
    simp [hp]

/-- Witness for C6's amended claim: with policy `Never` and one pattern
whose two matched files both collide, the batch still returns success and
shows no prompt. -/
theorem overwrite_never_recoverable_witness :
    (cp_dn_dir_loop "out" [{ hw := 5, name := "*.c" }]
        (mkSt [("out", FsNode.dir), ("out/x.c", FsNode.file), ("out/y.c", FsNode.file)]
          [] OverwritePolicy.never)).1 = Outcome.ok () := by
  have h := ((overwrite_never_recoverable "out").2.2.2.1 [{ hw := 5, name := "*.c" }]
    (mkSt [("out", FsNode.dir), ("out/x.c", FsNode.file), ("out/y.c", FsNode.file)]
      [] OverwritePolicy.never) rfl)
  exact h.1

end Gsc
